import Mathlib

/-! # Shallow embedding of the indices data pipeline

Cells and data frames model pandas objects; the functions below embed the
normalizers and the combining pipeline of data_combining.py, the numeric
cleaning loop of indice_2021/2021.py, and the encoding fallback loop of
process_csv_file. A float is modelled exactly as a decimal mantissa and a
nonnegative power-of-ten denominator, missing values (NaN/NaT/None) as a
single null cell, and a parsed datetime as a calendar date (the pipeline
never produces a time component).
-/

/-- A pandas scalar cell: text, a float (the value m divided by ten to
the e), a parsed datetime (year/month/day), or a missing value. -/
inductive Cell where
  | str (s : String)
  | num (m : Int) (e : Nat)
  | date (y mo d : Nat)
  | null
deriving DecidableEq, Repr

/-- A pandas DataFrame: a list of column labels and a list of rows, every
row listing its cells in header order. -/
structure DF where
  header : List String
  rows : List (List Cell)
deriving DecidableEq, Repr

/-- Drop leading and trailing whitespace from a list of characters, as
Python str.strip and pandas .str.strip do. -/
def trimChars (l : List Char) : List Char :=
  ((l.dropWhile Char.isWhitespace).reverse.dropWhile Char.isWhitespace).reverse

/-- Python str.strip on a String. -/
def pyStrip (s : String) : String :=
  String.mk (trimChars s.data)

/-- Value of a list of decimal digit characters. -/
def digitsToNat (l : List Char) : Nat :=
  l.foldl (fun n c => n * 10 + (c.toNat - 48)) 0

/-- Every character is a decimal digit. -/
def allDigits (l : List Char) : Bool :=
  l.all Char.isDigit

/-- Split a character list at every occurrence of a separator character,
as Python str.split with a one character separator does. -/
def splitChars (sep : Char) : List Char → List (List Char)
  | [] => [[]]
  | c :: t =>
    let r := splitChars sep t
    if c = sep then [] :: r
    else
      match r with
      | [] => [[c]]
      | h :: t2 => (c :: h) :: t2

/-- Optional exponent digits of a float literal, with an optional sign. -/
def parseSignedDigits : List Char → Option Int
  | '-' :: t => if !t.isEmpty && allDigits t then some (-(digitsToNat t : Int)) else none
  | '+' :: t => if !t.isEmpty && allDigits t then some (digitsToNat t : Int) else none
  | t => if !t.isEmpty && allDigits t then some (digitsToNat t : Int) else none

/-- The tail of a float literal after the mantissa digits: empty, or an
exponent marker followed by signed digits. -/
def parseExpTail : List Char → Option Int
  | [] => some 0
  | 'e' :: t => parseSignedDigits t
  | 'E' :: t => parseSignedDigits t
  | _ => none

/-- Build the exact float value digits * 10 ^ (exp - fracLen) as a
mantissa and a power-of-ten denominator exponent. -/
def makeFloat (sgn : Int) (digits : Nat) (fracLen : Nat) (exp : Int) : Int × Nat :=
  let k : Int := exp - (fracLen : Int)
  if 0 ≤ k then (sgn * (digits : Int) * (10 : Int) ^ k.toNat, 0)
  else (sgn * (digits : Int), (-k).toNat)

/-- Parse the decimal forms accepted by pandas to_numeric on a string:
optional surrounding whitespace, an optional sign, integer digits with an
optional fractional part (at least one digit overall), and an optional
exponent. A decimal comma, or any other stray character, fails. The
special floating values inf and nan carry no finite value and are treated
as failures here; every caller coerces a failure to null. -/
def parsePyFloat (s : String) : Option (Int × Nat) :=
  let l := trimChars s.data
  let sl : Int × List Char :=
    match l with
    | '-' :: t => (-1, t)
    | '+' :: t => (1, t)
    | _ => (1, l)
  let ip := sl.2.takeWhile Char.isDigit
  let r1 := sl.2.dropWhile Char.isDigit
  match r1 with
  | '.' :: t =>
    let fp := t.takeWhile Char.isDigit
    let r2 := t.dropWhile Char.isDigit
    if ip.isEmpty && fp.isEmpty then none
    else
      match parseExpTail r2 with
      | some e =>
        some (makeFloat sl.1 (digitsToNat ip * 10 ^ fp.length + digitsToNat fp) fp.length e)
      | none => none
  | _ =>
    if ip.isEmpty then none
    else
      match parseExpTail r1 with
      | some e => some (makeFloat sl.1 (digitsToNat ip) 0 e)
      | none => none

/-- Days in a month of the Gregorian calendar. -/
def daysInMonth (y m : Nat) : Nat :=
  if m == 2 then
    if y % 4 == 0 && (y % 100 != 0 || y % 400 == 0) then 29 else 28
  else if m == 4 || m == 6 || m == 9 || m == 11 then 30
  else 31

/-- Strict parse of a string against the pandas format %d/%m/%Y: one or
two day digits, one or two month digits, exactly four year digits,
separated by slashes, the whole string consumed, with calendar range
validation. Anything else, including an ISO formatted date, fails. -/
def parseDMY (s : String) : Option (Nat × Nat × Nat) :=
  match splitChars '/' s.data with
  | [dl, ml, yl] =>
    if (dl.length == 1 || dl.length == 2) && allDigits dl
        && (ml.length == 1 || ml.length == 2) && allDigits ml
        && yl.length == 4 && allDigits yl then
      let d := digitsToNat dl
      let m := digitsToNat ml
      let y := digitsToNat yl
      if 1 ≤ d ∧ 1 ≤ m ∧ m ≤ 12 ∧ d ≤ daysInMonth y m then some (y, m, d) else none
    else none
  | _ => none

/-- pandas to_numeric with errors=coerce on one cell: a string parses or
becomes null, a number passes through, any other object becomes null. -/
def toNumericCell : Cell → Cell
  | .str s =>
    match parsePyFloat s with
    | some (m, e) => .num m e
    | none => .null
  | .num m e => .num m e
  | .date _ _ _ => .null
  | .null => .null

/-- pandas to_datetime with format %d/%m/%Y and errors=coerce on one
cell: a string is parsed strictly against the format, a value that is
already a datetime passes through, anything unparseable becomes NaT
(null). -/
def toDatetimeCell : Cell → Cell
  | .str s =>
    match parseDMY s with
    | some (y, m, d) => .date y m d
    | none => .null
  | .date y m d => .date y m d
  | .num _ _ => .null
  | .null => .null

/-- The cell of the first column labelled c in a row, null when the label
is absent (pandas label lookup, first occurrence). -/
def getCell : List String → List Cell → String → Cell
  | [], _, _ => .null
  | _ :: _, [], _ => .null
  | h :: ht, x :: xt, c => if h = c then x else getCell ht xt c

/-- The column labelled c of a frame, listing its cells row by row. -/
def getCol (c : String) (df : DF) : List Cell :=
  df.rows.map (fun r => getCell df.header r c)

/-- clean_column_names of data_combining.py: df.columns.str.strip. -/
def clean_column_names (df : DF) : DF :=
  { header := df.header.map pyStrip, rows := df.rows }

/-- standardize_date_format of data_combining.py: when a SEANCE column is
present, every cell under a SEANCE label goes through
to_datetime(format %d/%m/%Y, errors=coerce); otherwise the frame passes
through unchanged. -/
def standardize_date_format (df : DF) : DF :=
  if "SEANCE" ∈ df.header then
    { header := df.header,
      rows := df.rows.map (fun r =>
        List.zipWith (fun h c => if h = "SEANCE" then toDatetimeCell c else c) df.header r) }
  else df

/-- The six designated numeric columns of data_combining.py. -/
def numeric_columns : List String :=
  ["INDICE_JOUR", "INDICE_VEILLE", "VARIATION_VEILLE",
   "INDICE_PLUS_HAUT", "INDICE_PLUS_BAS", "INDICE_OUV"]

/-- clean_numeric_columns of data_combining.py: each designated numeric
column that is present goes through to_numeric(errors=coerce); no other
column is touched, and absent designated columns are not created. -/
def clean_numeric_columns (df : DF) : DF :=
  { header := df.header,
    rows := df.rows.map (fun r =>
      List.zipWith (fun h c => if h ∈ numeric_columns then toNumericCell c else c)
        df.header r) }

/-- Left pad a number below 100 to two digits. -/
def pad2 (n : Nat) : String :=
  (if n < 10 then "0" else "") ++ toString n

/-- Left pad a number below 10000 to four digits. -/
def pad4 (n : Nat) : String :=
  (if n < 10 then "000" else if n < 100 then "00" else if n < 1000 then "0" else "")
    ++ toString n

/-- Python str of one cell as pandas astype(str) renders it: a string is
unchanged, a missing value prints as nan, a datetime prints in ISO form.
A float keeps an exact mantissa and exponent rendering here; no rendering
of a non string cell contains three consecutive dashes, which is all the
pipeline ever inspects on rendered cells. -/
def cellPyStr : Cell → String
  | .str s => s
  | .null => "nan"
  | .num m e => toString m ++ "e" ++ toString e
  | .date y m d => pad4 y ++ "-" ++ pad2 m ++ "-" ++ pad2 d ++ " 00:00:00"

/-- The first list is an initial segment of the second. -/
def charsStartWith : List Char → List Char → Bool
  | [], _ => true
  | _ :: _, [] => false
  | p :: ps, x :: xs => p == x && charsStartWith ps xs

/-- Substring containment on character lists, as the Python in operator
and pandas .str.contains test it. -/
def charsContain (p : List Char) : List Char → Bool
  | [] => charsStartWith p []
  | x :: xs => charsStartWith p (x :: xs) || charsContain p xs

/-- The separator row predicate of process_csv_file: the first column of
the row, rendered as str, contains the marker of three dashes. -/
def isSeparatorRow (r : List Cell) : Bool :=
  charsContain "---".data (cellPyStr (r.headD Cell.null)).data

/-- The cell is a missing value. -/
def isNullCell : Cell → Bool
  | .null => true
  | _ => false

/-- dropna(how=all): drop every row whose cells are all missing. -/
def dropAllNullRows (df : DF) : DF :=
  { header := df.header, rows := df.rows.filter (fun r => !(r.all isNullCell)) }

/-- Column assignment df[name] = value with a constant: when the label
exists every column carrying it is overwritten, otherwise a new column is
appended on the right. -/
def setConstCol (name : String) (v : Cell) (df : DF) : DF :=
  if name ∈ df.header then
    { header := df.header,
      rows := df.rows.map (fun r =>
        List.zipWith (fun h c => if h = name then v else c) df.header r) }
  else
    { header := df.header ++ [name], rows := df.rows.map (fun r => r ++ [v]) }

/-- The body of process_csv_file after a successful read: clean column
names, drop separator rows, drop all-null rows, standardize the date
column, clean the numeric columns, stamp the provenance columns. -/
def process_csv_body (df : DF) (fileName folderName : String) : DF :=
  let df1 := clean_column_names df
  let df2 : DF := { header := df1.header, rows := df1.rows.filter (fun r => !isSeparatorRow r) }
  let df3 := dropAllNullRows df2
  let df4 := standardize_date_format df3
  let df5 := clean_numeric_columns df4
  setConstCol "SOURCE_FOLDER" (Cell.str folderName)
    (setConstCol "SOURCE_FILE" (Cell.str fileName) df5)

/-- A raised Python exception, abstracted to its message. -/
def PyErr := String

/-- One discovered csv file: the outcome of reading and normalizing it
(the frame, or the exception the guarded block raised), together with its
base name and its parent folder name. -/
structure FileRec where
  res : Except PyErr DF
  fileName : String
  folderName : String

/-- process_csv_file: the whole per-file pipeline runs inside one try;
any exception raised in it is caught at the file boundary, logged, and
the file yields None. -/
def process_csv_file (f : FileRec) : Option DF :=
  match f.res with
  | .error _ => none
  | .ok df => some (process_csv_body df f.fileName f.folderName)

/-- Reindex one row of a frame with labels srcH to the label list newH:
labels the source frame lacks become null. -/
def reindexRow (srcH newH : List String) (r : List Cell) : List Cell :=
  newH.map (fun h => if h ∈ srcH then getCell srcH r h else Cell.null)

/-- Union of label lists in order of first appearance, as the pd.concat
outer join builds the combined columns. -/
def unionLabels (a b : List String) : List String :=
  a ++ b.filter (fun h => !(a.contains h))

/-- pd.concat of two frames with ignore_index and the default outer join:
the labels of the first frame followed by the new labels of the second,
every row reindexed to the combined labels. -/
def concat2 (a b : DF) : DF :=
  let hdr := unionLabels a.header b.header
  { header := hdr,
    rows := a.rows.map (reindexRow a.header hdr) ++ b.rows.map (reindexRow b.header hdr) }

/-- pd.concat of a list of frames, left to right. -/
def concatAll : List DF → DF
  | [] => { header := [], rows := [] }
  | d :: ds => ds.foldl concat2 d

/-- Union of a list of header lists in order of first appearance. -/
def unionHeaders : List (List String) → List String
  | [] => []
  | h :: t => t.foldl unionLabels h

/-- Lexicographic comparison of character lists by code point, the Python
string order. -/
def charsLE : List Char → List Char → Bool
  | [], _ => true
  | _ :: _, [] => false
  | a :: as, b :: bs =>
    if a < b then true else if b < a then false else charsLE as bs

/-- Comparison of two float cells: m1 / 10 ^ e1 is at most m2 / 10 ^ e2,
by cross multiplication. -/
def numLE (m1 : Int) (e1 : Nat) (m2 : Int) (e2 : Nat) : Bool :=
  decide (m1 * (10 : Int) ^ e2 ≤ m2 * (10 : Int) ^ e1)

/-- Chronological encoding of a calendar date. -/
def dateCode (y m d : Nat) : Nat :=
  y * 10000 + m * 100 + d

/-- The sort order on cells used by sort_values: missing values last (the
default na_position), datetimes chronological, strings in code point
order, numbers by value; distinct kinds are ranked numbers, strings,
datetimes, missing. -/
def cellLE : Cell → Cell → Bool
  | .num m1 e1, .num m2 e2 => numLE m1 e1 m2 e2
  | .num _ _, _ => true
  | .str _, .num _ _ => false
  | .str s, .str t => charsLE s.data t.data
  | .str _, .date _ _ _ => true
  | .str _, .null => true
  | .date _ _ _, .num _ _ => false
  | .date _ _ _, .str _ => false
  | .date y1 m1 d1, .date y2 m2 d2 => decide (dateCode y1 m1 d1 ≤ dateCode y2 m2 d2)
  | .date _ _ _, .null => true
  | .null, .null => true
  | .null, _ => false

/-- The comparator of sort_values([SEANCE, CODE_INDICE]) on two rows of a
frame with the given header: lexicographic, the session date first and
the index code as tie breaker. -/
def rowLE (hdr : List String) (r1 r2 : List Cell) : Bool :=
  let s1 := getCell hdr r1 "SEANCE"
  let s2 := getCell hdr r2 "SEANCE"
  if cellLE s1 s2 then
    if cellLE s2 s1 then cellLE (getCell hdr r1 "CODE_INDICE") (getCell hdr r2 "CODE_INDICE")
    else true
  else false

/-- The per-folder accumulation of combine_csv_files: files yielding None
or an empty frame are dropped; a folder with no surviving frame
contributes nothing, any other folder contributes the concatenation of
its surviving frames. -/
def folderFrames (folders : List (List FileRec)) : List DF :=
  folders.filterMap (fun files =>
    let fds := (files.filterMap process_csv_file).filter (fun df => !df.rows.isEmpty)
    if fds.isEmpty then none else some (concatAll fds))

/-- The tail of combine_csv_files once the folder frames are collected:
with no frame at all, report no data and write nothing; otherwise
concatenate, sort by (SEANCE, CODE_INDICE) when both labels are present,
and return the frame that is written. -/
def combineFromFrames (all_dataframes : List DF) : Option DF :=
  if all_dataframes.isEmpty then none
  else
    let combined := concatAll all_dataframes
    if "SEANCE" ∈ combined.header ∧ "CODE_INDICE" ∈ combined.header then
      some { header := combined.header,
             rows := List.insertionSort
               (fun r1 r2 => rowLE combined.header r1 r2 = true) combined.rows }
    else some combined

/-- combine_csv_files after folder discovery: accumulate the folder
frames in order, then combine, sort and return the written frame. -/
def combine_csv_files (folders : List (List FileRec)) : Option DF :=
  combineFromFrames (folderFrames folders)

/-- The numeric cleaning loop of indice_2021/2021.py on one cell:
astype(str), replace every comma by a point, strip, then
to_numeric(errors=coerce). -/
def clean2021Cell (c : Cell) : Cell :=
  toNumericCell (Cell.str (pyStrip (String.mk
    ((cellPyStr c).data.map (fun ch => if ch = ',' then '.' else ch)))))

/-- The numeric cleaning loop of indice_2021/2021.py over a frame: every
designated numeric column that is present goes through clean2021Cell. -/
def clean_numeric_2021 (df : DF) : DF :=
  { header := df.header,
    rows := df.rows.map (fun r =>
      List.zipWith (fun h c => if h ∈ numeric_columns then clean2021Cell c else c)
        df.header r) }

/-- The candidate encodings of process_csv_file, in order. -/
inductive PyEncoding where
  | utf8
  | latin1
  | cp1252
  | iso88591

/-- utf-8 decoding of a byte list: validates the multi-byte structure and
fails (UnicodeDecodeError) on malformed sequences. -/
def decodeUtf8 : List Nat → Option (List Char)
  | [] => some []
  | b :: bs =>
    if b < 0x80 then
      (decodeUtf8 bs).map (fun cs => Char.ofNat b :: cs)
    else if 0xC2 ≤ b ∧ b ≤ 0xDF then
      match bs with
      | b1 :: rest =>
        if 0x80 ≤ b1 ∧ b1 ≤ 0xBF then
          (decodeUtf8 rest).map (fun cs => Char.ofNat ((b - 0xC0) * 64 + (b1 - 0x80)) :: cs)
        else none
      | [] => none
    else if 0xE0 ≤ b ∧ b ≤ 0xEF then
      match bs with
      | b1 :: b2 :: rest =>
        if (0x80 ≤ b1 ∧ b1 ≤ 0xBF) ∧ (0x80 ≤ b2 ∧ b2 ≤ 0xBF) then
          (decodeUtf8 rest).map (fun cs =>
            Char.ofNat ((b - 0xE0) * 4096 + (b1 - 0x80) * 64 + (b2 - 0x80)) :: cs)
        else none
      | _ => none
    else if 0xF0 ≤ b ∧ b ≤ 0xF4 then
      match bs with
      | b1 :: b2 :: b3 :: rest =>
        if (0x80 ≤ b1 ∧ b1 ≤ 0xBF) ∧ (0x80 ≤ b2 ∧ b2 ≤ 0xBF) ∧ (0x80 ≤ b3 ∧ b3 ≤ 0xBF) then
          (decodeUtf8 rest).map (fun cs =>
            Char.ofNat ((b - 0xF0) * 262144 + (b1 - 0x80) * 4096
              + (b2 - 0x80) * 64 + (b3 - 0x80)) :: cs)
        else none
      | _ => none
    else none

/-- latin-1 decoding: every byte maps to the character of its value; it
never fails, whatever the input bytes are. -/
def decodeLatin1 (bs : List Nat) : List Char :=
  bs.map (fun b => Char.ofNat (b % 256))

/-- cp1252 decoding: like latin-1 on the byte level except that five code
positions are unmapped and raise UnicodeDecodeError. The exact characters
of the remapped 0x80 to 0x9F block are irrelevant to the pipeline; the
failure set is what matters here. -/
def decodeCp1252 (bs : List Nat) : Option (List Char) :=
  if bs.any (fun b =>
      b % 256 == 0x81 || b % 256 == 0x8D || b % 256 == 0x8F
        || b % 256 == 0x90 || b % 256 == 0x9D) then
    none
  else some (bs.map (fun b => Char.ofNat (b % 256)))

/-- Decoding a byte list under one candidate encoding; none models a
raised UnicodeDecodeError. -/
def decodeWith : PyEncoding → List Nat → Option (List Char)
  | .utf8, bs => decodeUtf8 bs
  | .latin1, bs => some (decodeLatin1 bs)
  | .cp1252, bs => decodeCp1252 bs
  | .iso88591, bs => some (decodeLatin1 bs)

/-- Outcome of pd.read_csv at one encoding: a frame, a UnicodeDecodeError
from decoding, or some other raised exception. -/
inductive ReadAttempt where
  | ok (df : DF)
  | unicodeError
  | raised (e : PyErr)

/-- pd.read_csv at one encoding: decoding may raise UnicodeDecodeError;
afterwards the csv parser, abstracted here to an arbitrary function, may
itself raise a non-unicode error or produce a frame. -/
def readAttempt (parse : List Char → Except PyErr DF) (enc : PyEncoding)
    (bs : List Nat) : ReadAttempt :=
  match decodeWith enc bs with
  | none => .unicodeError
  | some cs =>
    match parse cs with
    | .error e => .raised e
    | .ok df => .ok df

/-- The encoding fallback loop of process_csv_file: try each encoding in
order; on UnicodeDecodeError continue with the next; any other exception
propagates to the outer handler; when every attempt raised
UnicodeDecodeError the loop falls through with df still None and the
could-not-read branch runs, reported here as none. -/
def encodingLoop (parse : List Char → Except PyErr DF) (bs : List Nat) :
    List PyEncoding → Option (Except PyErr DF)
  | [] => none
  | e :: rest =>
    match readAttempt parse e bs with
    | .ok df => some (.ok df)
    | .raised err => some (.error err)
    | .unicodeError => encodingLoop parse bs rest

/-- The encoding candidate list of process_csv_file, in source order. -/
def encodings : List PyEncoding :=
  [.utf8, .latin1, .cp1252, .iso88591]

/-- The eleven canonical output columns named by the specification, in
its declared order. -/
def canonical_columns : List String :=
  ["SEANCE", "CODE_INDICE", "LIB_INDICE", "INDICE_JOUR", "INDICE_VEILLE",
   "VARIATION_VEILLE", "INDICE_PLUS_HAUT", "INDICE_PLUS_BAS", "INDICE_OUV",
   "SOURCE_FILE", "SOURCE_FOLDER"]

example : parsePyFloat "1234.56" = some (123456, 2) := by decide
example : parsePyFloat " 1234.56 " = some (123456, 2) := by decide
example : parsePyFloat "1234,56" = none := by decide
example : parsePyFloat "12e3" = some (12000, 0) := by decide
example : parseDMY "15/01/2021" = some (2021, 1, 15) := by decide
example : parseDMY "2021-01-15" = none := by decide
example : parseDMY "31/02/2021" = none := by decide
example : parseDMY "29/02/2020" = some (2020, 2, 29) := by decide

/-! ## Helper lemmas -/

theorem dropWhile_self_idem (p : α → Bool) (l : List α) :
    (l.dropWhile p).dropWhile p = l.dropWhile p := by
  induction l with
  | nil => rfl
  | cons a t ih =>
    by_cases h : p a
    · simp [List.dropWhile_cons, h, ih]
    · simp [List.dropWhile_cons, h]

theorem trimChars_idem (l : List Char) : trimChars (trimChars l) = trimChars l := by
  have hA : (l.dropWhile Char.isWhitespace).dropWhile Char.isWhitespace
      = l.dropWhile Char.isWhitespace := dropWhile_self_idem _ l
  set A := l.dropWhile Char.isWhitespace with hAdef
  have hBpre : (A.reverse.dropWhile Char.isWhitespace).reverse <+: A := by
    have h1 : (A.reverse.dropWhile Char.isWhitespace).reverse <+: A.reverse.reverse :=
      List.reverse_prefix.mpr (List.dropWhile_suffix _)
    rwa [List.reverse_reverse] at h1
  set B := (A.reverse.dropWhile Char.isWhitespace).reverse with hBdef
  have hB1 : B.dropWhile Char.isWhitespace = B := by
    cases hB : B with
    | nil => rfl
    | cons b bs =>
      obtain ⟨t, ht⟩ := hBpre
      rw [hB] at ht
      have hhead : Char.isWhitespace b = false := by
        by_cases hpb : Char.isWhitespace b
        · exfalso
          have hA2 := hA
          rw [← ht] at hA2
          simp only [List.cons_append, List.dropWhile_cons, hpb, if_true] at hA2
          have hsuf := List.dropWhile_suffix (l := bs ++ t) Char.isWhitespace
          rw [hA2] at hsuf
          have hle := hsuf.length_le
          simp at hle
        · simpa using hpb
      simp [List.dropWhile_cons, hhead]
  show ((B.dropWhile Char.isWhitespace).reverse.dropWhile Char.isWhitespace).reverse = B
  rw [hB1, hBdef, List.reverse_reverse,
    dropWhile_self_idem Char.isWhitespace A.reverse]

theorem pyStrip_idem (s : String) : pyStrip (pyStrip s) = pyStrip s := by
  simp [pyStrip, trimChars_idem]

theorem getCell_of_not_mem (c : String) :
    ∀ (hdr : List String) (r : List Cell), c ∉ hdr → getCell hdr r c = Cell.null := by
  intro hdr
  induction hdr with
  | nil => intro r _; cases r <;> rfl
  | cons h ht ih =>
    intro r hmem
    cases r with
    | nil => rfl
    | cons x xt =>
      have hne : h ≠ c := fun he => hmem (he ▸ List.mem_cons_self h ht)
      simp [getCell, hne, ih xt (fun hc => hmem (List.mem_cons_of_mem h hc))]

theorem getCell_zipWith (g : String → Cell → Cell) (c : String)
    (hnull : g c Cell.null = Cell.null) :
    ∀ (hdr : List String) (r : List Cell),
      getCell hdr (List.zipWith g hdr r) c = g c (getCell hdr r c) := by
  intro hdr
  induction hdr with
  | nil => intro r; simp [getCell, hnull]
  | cons h ht ih =>
    intro r
    cases r with
    | nil => simp [getCell, hnull]
    | cons x xt =>
      by_cases he : h = c
      · subst he; simp [getCell]
      · simp [getCell, he, ih xt]

theorem getCol_standardize (df : DF) :
    getCol "SEANCE" (standardize_date_format df)
      = (getCol "SEANCE" df).map toDatetimeCell := by
  by_cases hmem : "SEANCE" ∈ df.header
  · simp only [standardize_date_format, hmem, if_true, getCol, List.map_map]
    refine List.map_congr_left ?_
    intro r _
    rw [Function.comp_apply,
      getCell_zipWith (fun h c => if h = "SEANCE" then toDatetimeCell c else c) "SEANCE"
        (by simp [toDatetimeCell]) df.header r]
    simp
  · simp only [standardize_date_format, hmem, if_false, getCol, List.map_map]
    refine List.map_congr_left ?_
    intro r _
    rw [Function.comp_apply, getCell_of_not_mem "SEANCE" df.header r hmem]
    rfl

theorem toDatetimeCell_date_or_null (c : Cell) :
    toDatetimeCell c = Cell.null ∨ ∃ y m d, toDatetimeCell c = Cell.date y m d := by
  cases c with
  | str s =>
    cases hp : parseDMY s with
    | none => left; simp [toDatetimeCell, hp]
    | some v =>
      right
      exact ⟨v.1, v.2.1, v.2.2, by simp [toDatetimeCell, hp]⟩
  | num m e => left; rfl
  | date y m d => right; exact ⟨y, m, d, rfl⟩
  | null => left; rfl

/-! ## C3 -/

/-- C3: the claimed decimal-comma handling is absent from
clean_numeric_columns: a decimal-comma value in a designated numeric
column coerces to null there while its decimal-point counterpart parses,
against the claim (and the comment inside the function); the loop of
indice_2021/2021.py does replace the comma and gives both forms the same
numeric value. -/
theorem clean_numeric_decimal_comma_bug :
    getCol "INDICE_JOUR" (clean_numeric_columns ⟨["INDICE_JOUR"], [[Cell.str "1234,56"]]⟩)
      = [Cell.null]
    ∧ getCol "INDICE_JOUR" (clean_numeric_columns ⟨["INDICE_JOUR"], [[Cell.str "1234.56"]]⟩)
      = [Cell.num 123456 2]
    ∧ clean2021Cell (Cell.str "1234,56") = Cell.num 123456 2
    ∧ clean2021Cell (Cell.str "1234.56") = Cell.num 123456 2 := by
  exact ⟨by decide, by decide, by decide, by decide⟩

/-! ## C4 -/

/-- C4 counterexample: a value already in canonical ISO date form is not
tolerated by standardize_date_format; the strict %d/%m/%Y parse coerces
it to null instead of the claimed date. -/
theorem standardize_rejects_iso_counterexample :
    getCol "SEANCE" (standardize_date_format ⟨["SEANCE"], [[Cell.str "2021-01-15"]]⟩)
      = [Cell.null]
    ∧ Cell.null ≠ Cell.date 2021 1 15 := by
  exact ⟨by decide, by decide⟩

/-- C4 amended: standardize_date_format coerces every SEANCE cell to a
datetime or to null without raising (never leaving a string), parses
day-before-month DD/MM/YYYY values to the corresponding date, and maps a
value already in canonical ISO form to null rather than tolerating it. -/
theorem standardize_date_amended :
    (∀ (df : DF) (c : Cell), c ∈ getCol "SEANCE" (standardize_date_format df) →
      c = Cell.null ∨ ∃ y m d, c = Cell.date y m d)
    ∧ (∀ d : Nat, d < 29 → ∀ m : Nat, m < 13 → 1 ≤ d → 1 ≤ m →
        toDatetimeCell (Cell.str (pad2 d ++ "/" ++ pad2 m ++ "/2021")) = Cell.date 2021 m d)
    ∧ toDatetimeCell (Cell.str "2021-01-15") = Cell.null := by
  refine ⟨?_, ?_, by decide⟩
  · intro df c hc
    rw [getCol_standardize, List.mem_map] at hc
    obtain ⟨x, _, hx⟩ := hc
    rcases toDatetimeCell_date_or_null x with h | ⟨y, m, d, h⟩
    · left; rw [← hx, h]
    · right; exact ⟨y, m, d, by rw [← hx, h]⟩
  · decide

/-- Witness for the amended C4 theorem at concrete inputs. -/
theorem standardize_date_amended_witness :
    ((Cell.null = Cell.null ∨ ∃ y m d, Cell.null = Cell.date y m d)
      ∧ toDatetimeCell (Cell.str "15/01/2021") = Cell.date 2021 1 15) := by
  constructor
  · exact standardize_date_amended.1 ⟨["SEANCE"], [[Cell.str "garbage"]]⟩ Cell.null (by decide)
  · have h := standardize_date_amended.2.1 15 (by decide) 1 (by decide) (by decide) (by decide)
    simpa using h

/-! ## C5 -/

/-- C5 counterexample: process_csv_file performs no whitespace stripping
on text values; the surrounding spaces of a label survive to the
normalized table, against the claimed pipeline step. -/
theorem process_keeps_text_whitespace_counterexample :
    getCol "LIB_INDICE" (process_csv_body ⟨["SEANCE", "LIB_INDICE"],
        [[Cell.str "15/01/2021", Cell.str " TUNINDEX "]]⟩ "f.csv" "indice_2008")
      = [Cell.str " TUNINDEX "]
    ∧ Cell.str " TUNINDEX " ≠ Cell.str "TUNINDEX" := by
  exact ⟨by decide, by decide⟩

/-- C5 amended: the per-file pipeline strips whitespace only from column
names; the text value of a non date, non numeric column is returned
byte for byte, whatever string it holds. -/
theorem process_text_values_unchanged (s : String) :
    getCol "LIB_INDICE" (process_csv_body ⟨["SEANCE", "LIB_INDICE"],
        [[Cell.str "15/01/2021", Cell.str s]]⟩ "f.csv" "indice_2008")
      = [Cell.str s] := by
  rfl

/-! ## C6 -/

/-- C6: a file whose guarded pipeline raises is caught at the file
boundary and yields None, and the combine loop over the remaining files
is unchanged by its presence: the failing file contributes zero rows and
never aborts the run. -/
theorem failing_file_contributes_nothing (e : PyErr) (fn fd : String)
    (pre post : List (List FileRec)) (xs ys : List FileRec) :
    process_csv_file ⟨Except.error e, fn, fd⟩ = none
    ∧ combine_csv_files (pre ++ (xs ++ ⟨Except.error e, fn, fd⟩ :: ys) :: post)
      = combine_csv_files (pre ++ (xs ++ ys) :: post) := by
  constructor
  · rfl
  · have hframes : folderFrames (pre ++ (xs ++ ⟨Except.error e, fn, fd⟩ :: ys) :: post)
        = folderFrames (pre ++ (xs ++ ys) :: post) := by
      simp only [folderFrames, List.filterMap_append, List.filterMap_cons, process_csv_file]
    rw [combine_csv_files, combine_csv_files, hframes]

/-! ## C10 -/

/-- C10: the could-not-read branch of process_csv_file is unreachable:
the loop retries only on UnicodeDecodeError, latin-1 (the second
candidate) decodes every byte sequence, so by the second attempt the
loop has either produced a frame or propagated a non-unicode error; it
never exhausts the candidate list. -/
theorem encoding_fallback_never_exhausted (bs : List Nat)
    (parse : List Char → Except PyErr DF) :
    encodingLoop parse bs encodings ≠ none := by
  intro h
  rw [show encodings = [.utf8, .latin1, .cp1252, .iso88591] from rfl] at h
  cases h1 : readAttempt parse PyEncoding.utf8 bs with
  | ok df => simp [encodingLoop, h1] at h
  | raised err => simp [encodingLoop, h1] at h
  | unicodeError =>
    simp only [encodingLoop, h1] at h
    cases h2 : parse (decodeLatin1 bs) with
    | error err => simp [encodingLoop, readAttempt, decodeWith, h2] at h
    | ok df => simp [encodingLoop, readAttempt, decodeWith, h2] at h

/-! ## Order lemmas for the sort comparator -/

theorem charsLE_total : ∀ a b : List Char, charsLE a b = true ∨ charsLE b a = true := by
  intro a
  induction a with
  | nil => intro b; left; rfl
  | cons x xs ih =>
    intro b
    cases b with
    | nil => right; rfl
    | cons y ys =>
      by_cases h1 : x < y
      · left; simp [charsLE, h1]
      · by_cases h2 : y < x
        · right; simp [charsLE, h2]
        · rcases ih ys with h | h
          · left; simp [charsLE, h1, h2, h]
          · right; simp [charsLE, h1, h2, h]

theorem charsLE_trans : ∀ a b c : List Char,
    charsLE a b = true → charsLE b c = true → charsLE a c = true := by
  intro a
  induction a with
  | nil => intro b c _ _; rfl
  | cons x xs ih =>
    intro b c hab hbc
    cases b with
    | nil => simp [charsLE] at hab
    | cons y ys =>
      cases c with
      | nil => simp [charsLE] at hbc
      | cons z zs =>
        by_cases hxy : x < y
        · by_cases hyz : y < z
          · simp [charsLE, lt_trans hxy hyz]
          · by_cases hzy : z < y
            · simp [charsLE, hyz, hzy] at hbc
            · have hyzeq : y = z := le_antisymm (not_lt.mp hzy) (not_lt.mp hyz)
              simp [charsLE, hyzeq ▸ hxy]
        · by_cases hyx : y < x
          · simp [charsLE, hxy, hyx] at hab
          · have hxyeq : x = y := le_antisymm (not_lt.mp hyx) (not_lt.mp hxy)
            subst hxyeq
            simp only [charsLE, if_neg hxy, if_neg hyx] at hab
            by_cases hyz : x < z
            · simp [charsLE, hyz]
            · by_cases hzy : z < x
              · simp [charsLE, hyz, hzy] at hbc
              · simp only [charsLE, if_neg hyz, if_neg hzy] at hbc ⊢
                exact ih ys zs hab hbc

theorem pow10_pos (e : Nat) : (0 : Int) < 10 ^ e :=
  pow_pos (by norm_num) e

theorem numLE_trans (m1 m2 m3 : Int) (e1 e2 e3 : Nat)
    (h1 : numLE m1 e1 m2 e2 = true) (h2 : numLE m2 e2 m3 e3 = true) :
    numLE m1 e1 m3 e3 = true := by
  simp only [numLE, decide_eq_true_eq] at h1 h2 ⊢
  have k1 := mul_le_mul_of_nonneg_right h1 (le_of_lt (pow10_pos e3))
  have k2 := mul_le_mul_of_nonneg_right h2 (le_of_lt (pow10_pos e1))
  have k3 : m1 * 10 ^ e3 * 10 ^ e2 ≤ m3 * 10 ^ e1 * 10 ^ e2 := by
    calc m1 * 10 ^ e3 * 10 ^ e2 = m1 * 10 ^ e2 * 10 ^ e3 := by ring
    _ ≤ m2 * 10 ^ e1 * 10 ^ e3 := k1
    _ = m2 * 10 ^ e3 * 10 ^ e1 := by ring
    _ ≤ m3 * 10 ^ e2 * 10 ^ e1 := k2
    _ = m3 * 10 ^ e1 * 10 ^ e2 := by ring
  exact le_of_mul_le_mul_right k3 (pow10_pos e2)

theorem cellLE_total : ∀ a b : Cell, cellLE a b = true ∨ cellLE b a = true := by
  intro a b
  cases a <;> cases b <;> simp [cellLE, numLE]
  case num.num m1 e1 m2 e2 =>
    rcases Int.le_total (m1 * 10 ^ e2) (m2 * 10 ^ e1) with h | h
    · left; exact h
    · right; exact h
  case str.str s t => exact charsLE_total s.data t.data
  case date.date y1 mo1 d1 y2 mo2 d2 => omega

theorem cellLE_trans : ∀ a b c : Cell,
    cellLE a b = true → cellLE b c = true → cellLE a c = true := by
  intro a b c hab hbc
  cases a <;> cases b <;> cases c <;> simp [cellLE] at hab hbc ⊢
  case num.num.num m1 e1 m2 e2 m3 e3 => exact numLE_trans m1 m2 m3 e1 e2 e3 hab hbc
  case str.str.str s t u => exact charsLE_trans s.data t.data u.data hab hbc
  case date.date.date => omega

theorem rowLE_total (hdr : List String) :
    ∀ r1 r2 : List Cell, rowLE hdr r1 r2 = true ∨ rowLE hdr r2 r1 = true := by
  intro r1 r2
  simp only [rowLE]
  by_cases h12 : cellLE (getCell hdr r1 "SEANCE") (getCell hdr r2 "SEANCE") = true
  · by_cases h21 : cellLE (getCell hdr r2 "SEANCE") (getCell hdr r1 "SEANCE") = true
    · rcases cellLE_total (getCell hdr r1 "CODE_INDICE") (getCell hdr r2 "CODE_INDICE")
        with h | h
      · left; simp [h12, h21, h]
      · right; simp [h12, h21, h]
    · left; simp [h12, h21]
  · rcases cellLE_total (getCell hdr r1 "SEANCE") (getCell hdr r2 "SEANCE") with h | h
    · exact absurd h h12
    · by_cases h12b : cellLE (getCell hdr r1 "SEANCE") (getCell hdr r2 "SEANCE") = true
      · exact absurd h12b h12
      · right; simp [h, h12b]

theorem rowLE_trans (hdr : List String) :
    ∀ r1 r2 r3 : List Cell,
      rowLE hdr r1 r2 = true → rowLE hdr r2 r3 = true → rowLE hdr r1 r3 = true := by
  intro r1 r2 r3 h12 h23
  simp only [rowLE] at h12 h23 ⊢
  by_cases a12 : cellLE (getCell hdr r1 "SEANCE") (getCell hdr r2 "SEANCE") = true
  case neg => simp [a12] at h12
  by_cases a23 : cellLE (getCell hdr r2 "SEANCE") (getCell hdr r3 "SEANCE") = true
  case neg => simp [a23] at h23
  have a13 : cellLE (getCell hdr r1 "SEANCE") (getCell hdr r3 "SEANCE") = true :=
    cellLE_trans _ _ _ a12 a23
  simp only [a12, a23, a13, if_true] at h12 h23 ⊢
  by_cases a31 : cellLE (getCell hdr r3 "SEANCE") (getCell hdr r1 "SEANCE") = true
  case neg => simp [a31]
  have a21 : cellLE (getCell hdr r2 "SEANCE") (getCell hdr r1 "SEANCE") = true :=
    cellLE_trans _ _ _ a23 a31
  have a32 : cellLE (getCell hdr r3 "SEANCE") (getCell hdr r2 "SEANCE") = true :=
    cellLE_trans _ _ _ a31 a12
  simp only [a21, a31, a32, if_true] at h12 h23 ⊢
  exact cellLE_trans _ _ _ h12 h23

/-! ## Combine stage helper lemmas -/

theorem combineFromFrames_sorted (frames : List DF) (out : DF)
    (h : combineFromFrames frames = some out)
    (hS : "SEANCE" ∈ out.header) (hC : "CODE_INDICE" ∈ out.header) :
    List.Pairwise (fun r1 r2 => rowLE out.header r1 r2 = true) out.rows := by
  by_cases he : frames.isEmpty
  · simp [combineFromFrames, he] at h
  · by_cases hk : "SEANCE" ∈ (concatAll frames).header
        ∧ "CODE_INDICE" ∈ (concatAll frames).header
    · simp only [combineFromFrames, he, if_false, hk, true_and, and_self, if_true,
        Bool.false_eq_true, Option.some.injEq] at h
      subst h
      haveI : IsTrans (List Cell)
          (fun r1 r2 => rowLE (concatAll frames).header r1 r2 = true) :=
        ⟨fun a b c hab hbc => rowLE_trans (concatAll frames).header a b c hab hbc⟩
      haveI : IsTotal (List Cell)
          (fun r1 r2 => rowLE (concatAll frames).header r1 r2 = true) :=
        ⟨fun a b => rowLE_total (concatAll frames).header a b⟩
      exact List.sorted_insertionSort _ (concatAll frames).rows
    · simp only [combineFromFrames, he, if_false, hk, true_and, and_self, if_true,
        Bool.false_eq_true, Option.some.injEq] at h
      subst h
      exact absurd ⟨hS, hC⟩ hk

theorem combineFromFrames_rows_perm (frames : List DF) (out : DF)
    (h : combineFromFrames frames = some out) :
    out.rows.Perm (concatAll frames).rows := by
  by_cases he : frames.isEmpty
  · simp [combineFromFrames, he] at h
  · by_cases hk : "SEANCE" ∈ (concatAll frames).header
        ∧ "CODE_INDICE" ∈ (concatAll frames).header
    · simp only [combineFromFrames, he, if_false, hk, true_and, and_self, if_true,
        Bool.false_eq_true, Option.some.injEq] at h
      subst h
      exact List.perm_insertionSort _ (concatAll frames).rows
    · simp only [combineFromFrames, he, if_false, hk, true_and, and_self, if_true,
        Bool.false_eq_true, Option.some.injEq] at h
      subst h
      exact List.Perm.refl _

theorem foldl_concat2_header :
    ∀ (ds : List DF) (d : DF),
      (ds.foldl concat2 d).header = (ds.map DF.header).foldl unionLabels d.header := by
  intro ds
  induction ds with
  | nil => intro d; rfl
  | cons e es ih =>
    intro d
    simp only [List.foldl_cons, List.map_cons]
    rw [ih (concat2 d e)]
    rfl

theorem concatAll_header (ds : List DF) :
    (concatAll ds).header = unionHeaders (ds.map DF.header) := by
  cases ds with
  | nil => rfl
  | cons d es => exact foldl_concat2_header es d

theorem combineFromFrames_header (frames : List DF) (out : DF)
    (h : combineFromFrames frames = some out) :
    out.header = unionHeaders (frames.map DF.header) := by
  by_cases he : frames.isEmpty
  · simp [combineFromFrames, he] at h
  · by_cases hk : "SEANCE" ∈ (concatAll frames).header
        ∧ "CODE_INDICE" ∈ (concatAll frames).header
    · simp only [combineFromFrames, he, if_false, hk, true_and, and_self, if_true,
        Bool.false_eq_true, Option.some.injEq] at h
      subst h
      exact concatAll_header frames
    · simp only [combineFromFrames, he, if_false, hk, true_and, and_self, if_true,
        Bool.false_eq_true, Option.some.injEq] at h
      subst h
      exact concatAll_header frames

/-! ## C1 -/

/-- C1 counterexample: the combine stage performs no null-date drop; a
row whose session date fails to parse survives, with a null SEANCE, into
the frame that is written. -/
theorem combine_retains_null_seance_counterexample :
    combine_csv_files [[⟨Except.ok ⟨["SEANCE", "CODE_INDICE"],
        [[Cell.str "bad-date", Cell.str "TUNINDEX"],
         [Cell.str "15/01/2021", Cell.str "TUNINDEX"]]⟩, "a.csv", "indice_2008"⟩]]
      = some ⟨["SEANCE", "CODE_INDICE", "SOURCE_FILE", "SOURCE_FOLDER"],
        [[Cell.date 2021 1 15, Cell.str "TUNINDEX", Cell.str "a.csv", Cell.str "indice_2008"],
         [Cell.null, Cell.str "TUNINDEX", Cell.str "a.csv", Cell.str "indice_2008"]]⟩
    ∧ Cell.null ∈ getCol "SEANCE" (⟨["SEANCE", "CODE_INDICE", "SOURCE_FILE", "SOURCE_FOLDER"],
        [[Cell.date 2021 1 15, Cell.str "TUNINDEX", Cell.str "a.csv", Cell.str "indice_2008"],
         [Cell.null, Cell.str "TUNINDEX", Cell.str "a.csv", Cell.str "indice_2008"]]⟩ : DF) := by
  exact ⟨by decide, by decide⟩

/-- C1 amended: the combine stage filters nothing; the written frame
holds exactly the rows accumulated from the processed files (the final
sort permutes them), null session dates included. -/
theorem combine_rows_perm_of_some (folders : List (List FileRec)) (out : DF)
    (h : combine_csv_files folders = some out) :
    out.rows.Perm (concatAll (folderFrames folders)).rows := by
  rw [combine_csv_files] at h
  exact combineFromFrames_rows_perm _ _ h

/-- Witness for the amended C1 theorem at a concrete input. -/
theorem combine_rows_perm_of_some_witness :
    List.Perm
      [[Cell.date 2021 1 15, Cell.str "TUNINDEX", Cell.str "b.csv", Cell.str "indice_2009"],
       [Cell.null, Cell.str "TUNINDEX", Cell.str "b.csv", Cell.str "indice_2009"]]
      (concatAll (folderFrames [[⟨Except.ok ⟨["SEANCE", "CODE_INDICE"],
        [[Cell.str "not-a-date", Cell.str "TUNINDEX"],
         [Cell.str "15/01/2021", Cell.str "TUNINDEX"]]⟩, "b.csv", "indice_2009"⟩]])).rows :=
  combine_rows_perm_of_some
    [[⟨Except.ok ⟨["SEANCE", "CODE_INDICE"],
        [[Cell.str "not-a-date", Cell.str "TUNINDEX"],
         [Cell.str "15/01/2021", Cell.str "TUNINDEX"]]⟩, "b.csv", "indice_2009"⟩]]
    ⟨["SEANCE", "CODE_INDICE", "SOURCE_FILE", "SOURCE_FOLDER"],
      [[Cell.date 2021 1 15, Cell.str "TUNINDEX", Cell.str "b.csv", Cell.str "indice_2009"],
       [Cell.null, Cell.str "TUNINDEX", Cell.str "b.csv", Cell.str "indice_2009"]]⟩
    (by decide)

/-! ## C2 -/

/-- C2 counterexample: a run whose sources carry only a subset of the
canonical columns produces an output with exactly those columns plus the
two provenance columns, not the fixed eleven column canonical header. -/
theorem combine_header_not_canonical_counterexample :
    (combine_csv_files [[⟨Except.ok ⟨["SEANCE", "CODE_INDICE"],
        [[Cell.str "15/01/2021", Cell.str "TUNINDEX"]]⟩, "a.csv", "indice_2008"⟩]]).map DF.header
      = some ["SEANCE", "CODE_INDICE", "SOURCE_FILE", "SOURCE_FOLDER"]
    ∧ (["SEANCE", "CODE_INDICE", "SOURCE_FILE", "SOURCE_FOLDER"] : List String)
      ≠ canonical_columns := by
  exact ⟨by decide, by decide⟩

/-- C2 amended: the output header is the first-appearance union of the
processed folder frames headers (each file contributing its own columns
plus the provenance columns); no reconciliation to the canonical eleven
column order takes place and no missing canonical column is synthesized
at the combine stage. -/
theorem combine_header_is_union (folders : List (List FileRec)) (out : DF)
    (h : combine_csv_files folders = some out) :
    out.header = unionHeaders ((folderFrames folders).map DF.header) := by
  rw [combine_csv_files] at h
  exact combineFromFrames_header _ _ h

/-- Witness for the amended C2 theorem at a concrete input. -/
theorem combine_header_is_union_witness :
    (["SEANCE", "LIB_INDICE", "SOURCE_FILE", "SOURCE_FOLDER"] : List String)
      = unionHeaders ((folderFrames [[⟨Except.ok ⟨["SEANCE", "LIB_INDICE"],
          [[Cell.str "15/01/2021", Cell.str "TUNINDEX"]]⟩,
        "c.csv", "indice_2010"⟩]]).map DF.header) :=
  combine_header_is_union
    [[⟨Except.ok ⟨["SEANCE", "LIB_INDICE"],
        [[Cell.str "15/01/2021", Cell.str "TUNINDEX"]]⟩, "c.csv", "indice_2010"⟩]]
    ⟨["SEANCE", "LIB_INDICE", "SOURCE_FILE", "SOURCE_FOLDER"],
      [[Cell.date 2021 1 15, Cell.str "TUNINDEX", Cell.str "c.csv", Cell.str "indice_2010"]]⟩
    (by decide)

/-! ## C7 -/

/-- C7 counterexample: when the sources lack the CODE_INDICE column the
sort is skipped entirely and the written rows may decrease in session
date. -/
theorem combine_unsorted_counterexample :
    combine_csv_files [[⟨Except.ok ⟨["SEANCE"],
        [[Cell.str "01/02/2021"], [Cell.str "01/01/2021"]]⟩, "a.csv", "indice_2021"⟩]]
      = some ⟨["SEANCE", "SOURCE_FILE", "SOURCE_FOLDER"],
        [[Cell.date 2021 2 1, Cell.str "a.csv", Cell.str "indice_2021"],
         [Cell.date 2021 1 1, Cell.str "a.csv", Cell.str "indice_2021"]]⟩
    ∧ ¬ List.Pairwise
        (fun r1 r2 => rowLE ["SEANCE", "SOURCE_FILE", "SOURCE_FOLDER"] r1 r2 = true)
        [[Cell.date 2021 2 1, Cell.str "a.csv", Cell.str "indice_2021"],
         [Cell.date 2021 1 1, Cell.str "a.csv", Cell.str "indice_2021"]] := by
  exact ⟨by decide, by decide⟩

/-- C7 amended: whenever the written frame carries both the SEANCE and
the CODE_INDICE columns, its rows are sorted non-decreasing under the
(session date, index code) key with missing values last; when either
column is absent the concatenation order is left as is. -/
theorem combine_sorted_when_keys_present (folders : List (List FileRec)) (out : DF)
    (h : combine_csv_files folders = some out)
    (hS : "SEANCE" ∈ out.header) (hC : "CODE_INDICE" ∈ out.header) :
    List.Pairwise (fun r1 r2 => rowLE out.header r1 r2 = true) out.rows := by
  rw [combine_csv_files] at h
  exact combineFromFrames_sorted _ _ h hS hC

/-- Witness for the amended C7 theorem at a concrete input. -/
theorem combine_sorted_when_keys_present_witness :
    List.Pairwise
      (fun r1 r2 => rowLE ["SEANCE", "CODE_INDICE", "SOURCE_FILE", "SOURCE_FOLDER"] r1 r2 = true)
      [[Cell.date 2021 1 1, Cell.str "A", Cell.str "d.csv", Cell.str "indice_2021"],
       [Cell.date 2021 2 1, Cell.str "B", Cell.str "d.csv", Cell.str "indice_2021"]] :=
  combine_sorted_when_keys_present
    [[⟨Except.ok ⟨["SEANCE", "CODE_INDICE"],
        [[Cell.str "01/02/2021", Cell.str "B"],
         [Cell.str "01/01/2021", Cell.str "A"]]⟩, "d.csv", "indice_2021"⟩]]
    ⟨["SEANCE", "CODE_INDICE", "SOURCE_FILE", "SOURCE_FOLDER"],
      [[Cell.date 2021 1 1, Cell.str "A", Cell.str "d.csv", Cell.str "indice_2021"],
       [Cell.date 2021 2 1, Cell.str "B", Cell.str "d.csv", Cell.str "indice_2021"]]⟩
    (by decide) (by decide) (by decide)

/-! ## C8 -/

theorem zipWith_same_comp (g : String → Cell → Cell)
    (hg : ∀ h c, g h (g h c) = g h c) :
    ∀ (hdr : List String) (r : List Cell),
      List.zipWith g hdr (List.zipWith g hdr r) = List.zipWith g hdr r := by
  intro hdr
  induction hdr with
  | nil => intro r; rfl
  | cons h ht ih =>
    intro r
    cases r with
    | nil => rfl
    | cons x xt => simp [List.zipWith, hg h x, ih xt]

theorem toNumericCell_idem (c : Cell) :
    toNumericCell (toNumericCell c) = toNumericCell c := by
  cases c with
  | str s => cases hp : parsePyFloat s <;> simp [toNumericCell, hp]
  | num m e => rfl
  | date y mo d => rfl
  | null => rfl

/-- C8: clean_column_names and clean_numeric_columns are idempotent:
stripping stripped column names changes nothing, and coercing an already
coerced numeric column changes nothing. -/
theorem normalizers_idempotent (df : DF) :
    clean_column_names (clean_column_names df) = clean_column_names df
    ∧ clean_numeric_columns (clean_numeric_columns df) = clean_numeric_columns df := by
  constructor
  · simp only [clean_column_names, List.map_map]
    congr 1
    refine List.map_congr_left ?_
    intro a _
    exact pyStrip_idem a
  · simp only [clean_numeric_columns, List.map_map]
    congr 1
    refine List.map_congr_left ?_
    intro r _
    rw [Function.comp_apply]
    refine zipWith_same_comp _ ?_ df.header r
    intro h c
    by_cases hmem : h ∈ numeric_columns
    · simp [hmem, toNumericCell_idem]
    · simp [hmem]

/-! ## C9 -/

/-- C9: each normalizer touches only its designated columns: every
column outside the six numeric ones is untouched by
clean_numeric_columns, and every column other than SEANCE is untouched
by standardize_date_format. -/
theorem normalizers_frame_effect (df : DF) (c : String) :
    (c ∉ numeric_columns → getCol c (clean_numeric_columns df) = getCol c df)
    ∧ (c ≠ "SEANCE" → getCol c (standardize_date_format df) = getCol c df) := by
  constructor
  · intro hc
    simp only [clean_numeric_columns, getCol, List.map_map]
    refine List.map_congr_left ?_
    intro r _
    rw [Function.comp_apply,
      getCell_zipWith (fun h x => if h ∈ numeric_columns then toNumericCell x else x) c
        (by by_cases hmem : c ∈ numeric_columns <;> simp [hmem, toNumericCell]) df.header r]
    simp [hc]
  · intro hc
    by_cases hmem : "SEANCE" ∈ df.header
    · simp only [standardize_date_format, hmem, if_true, getCol, List.map_map]
      refine List.map_congr_left ?_
      intro r _
      rw [Function.comp_apply,
        getCell_zipWith (fun h x => if h = "SEANCE" then toDatetimeCell x else x) c
          (by by_cases h2 : c = "SEANCE" <;> simp [h2, toDatetimeCell]) df.header r]
      simp [hc]
    · simp [standardize_date_format, hmem]

/-- Witness for the C9 theorem at a concrete frame and column. -/
theorem normalizers_frame_effect_witness :
    getCol "LIB_INDICE" (clean_numeric_columns ⟨["LIB_INDICE"], [[Cell.str "TUNINDEX"]]⟩)
      = getCol "LIB_INDICE" (⟨["LIB_INDICE"], [[Cell.str "TUNINDEX"]]⟩ : DF)
    ∧ getCol "LIB_INDICE" (standardize_date_format ⟨["LIB_INDICE"], [[Cell.str "TUNINDEX"]]⟩)
      = getCol "LIB_INDICE" (⟨["LIB_INDICE"], [[Cell.str "TUNINDEX"]]⟩ : DF) :=
  ⟨(normalizers_frame_effect ⟨["LIB_INDICE"], [[Cell.str "TUNINDEX"]]⟩ "LIB_INDICE").1
      (by decide),
   (normalizers_frame_effect ⟨["LIB_INDICE"], [[Cell.str "TUNINDEX"]]⟩ "LIB_INDICE").2
      (by decide)⟩
